import Mathlib

/-!
Shallow embedding of the `washdecorators` package (`washdecorators/decs.py`):
a set of Python decorators (retry, memoization, webhook / push-topic
notifiers).  Each wrapper's per-call behaviour is modelled as a pure Lean
function from the wrapped callable's outcome (an `Except` value: `.ok` for a
normal return, `.error` for a raised exception) to the wrapper's observable
behaviour: what it returns or raises, and the list of HTTP POST requests it
issues.  Python's `try/except/finally` semantics — in particular the rule
that a `return` statement executed inside a `finally` block replaces any
in-flight return value or in-flight exception — are modelled explicitly.
-/

namespace WashDecorators

/-- Observable outcome of one call of a wrapped function in Python:
it returns a value, returns the implicit `None` (e.g. a bare `return`, or
falling off the end of the function body), or lets an exception escape. -/
inductive PyOutcome (ε α : Type) where
  | ret (a : α)
  | retNone
  | raised (e : ε)
deriving DecidableEq

/-- One HTTP POST issued by a wrapper: target URL and plain-text body
(`post(url, data=body)` in the source). -/
structure PostRecord where
  url : String
  body : String
deriving DecidableEq

/-! ### `retry` (decs.py lines 14–39)

```python
def retry_wrapper(*args, **kwargs):
    tries = 0
    while tries < max_tries:
        try:
            return func(*args, **kwargs)
        except Exception as e:
            tries += 1
            if tries == max_tries:
                raise e
            sleep(delay_seconds)
```

The wrapped callable is modelled as `f : Nat → Except ε α`, giving the
outcome of its `i`-th invocation (0-indexed).  `max_tries` is an `Int` so
that the zero/negative configuration is representable.  The loop is embedded
with explicit fuel `maxT.toNat`, which is exactly the number of iterations
the `while tries < max_tries` loop can perform starting from `tries = 0`;
running out of fuel coincides with the loop condition turning false.  The
result pairs the wrapper's outcome (`none` = the loop exits without a
`return`/`raise`, i.e. Python returns `None`) with the total number of
invocations of the callable.  `sleep(delay_seconds)` has no observable
effect in this model. -/
def retryGo (maxT : Int) (f : Nat → Except ε α) :
    Nat → Nat → Option (Except ε α) × Nat
  | 0, tries => (none, tries)
  | fuel + 1, tries =>
    if (tries : Int) < maxT then
      match f tries with
      | Except.ok v => (some (Except.ok v), tries + 1)
      | Except.error e =>
        if ((tries : Int) + 1) = maxT then (some (Except.error e), tries + 1)
        else retryGo maxT f fuel (tries + 1)
    else (none, tries)

/-- One call of the `retry`-wrapped callable: outcome plus number of
invocations of the underlying callable. -/
def retryRun (maxT : Int) (f : Nat → Except ε α) : Option (Except ε α) × Nat :=
  retryGo maxT f maxT.toNat 0

/-! ### Substring occurrence (for claims about POST bodies) -/

/-- Boolean test: does `pat` occur at the head of `l`? -/
def leadsWith : List Char → List Char → Bool
  | [], _ => true
  | _ :: _, [] => false
  | a :: as, b :: bs => a == b && leadsWith as bs

/-- Boolean test: does `pat` occur as a contiguous run inside `l`? -/
def hasSub (pat : List Char) : List Char → Bool
  | [] => pat.isEmpty
  | c :: rest => leadsWith pat (c :: rest) || hasSub pat rest

theorem leadsWith_append (p rest : List Char) : leadsWith p (p ++ rest) = true := by
  induction p with
  | nil => rfl
  | cons a as ih => simp [leadsWith, ih]

theorem hasSub_self_append (pat post : List Char) :
    hasSub pat (pat ++ post) = true := by
  cases pat with
  | nil =>
    cases post with
    | nil => rfl
    | cons c rest => simp [hasSub, leadsWith]
  | cons a as =>
    have h := leadsWith_append (a :: as) post
    simp only [List.cons_append] at h
    simp [hasSub, h]

theorem hasSub_cons (pat l : List Char) (c : Char) (h : hasSub pat l = true) :
    hasSub pat (c :: l) = true := by
  simp [hasSub, h]

theorem hasSub_append_left (pre pat l : List Char) (h : hasSub pat l = true) :
    hasSub pat (pre ++ l) = true := by
  induction pre with
  | nil => simpa using h
  | cons c cs ih => simpa using hasSub_cons pat (cs ++ l) c ih

/-- `pat` occurs inside the string `s`. -/
def strHasSub (pat s : String) : Bool := hasSub pat.data s.data

/-! ### `ntfy` (decs.py lines 173–213)

```python
def wrapper(*args, **kwargs):
    data = None
    try:
        result = func(*args, **kwargs)
        if on_completion is None:
            return result
        elif on_completion == "results":
            data = str(result)
        else:
            data = on_completion
        return result
    except Exception as e:
        if on_error is None:
            raise e
        elif on_error == "error":
            from traceback import format_exception
            data = ' '.join(format_exception(e))
        else:
            data = on_error
        raise e
    finally:
        if data is None:
            return

        from requests import post
        post(f"{ntfy_link}/{topic}", data=data)
```

Python semantics of the `finally` block: if `data` is `None` the bare
`return` executes, which *replaces* the in-flight return value (or in-flight
exception) with a plain `return None`; if `data` is not `None`, the POST is
issued, the `finally` block finishes normally, and the in-flight return or
exception proceeds unchanged.  `on_completion`/`on_error` are `str | None`
in the source, modelled as `Option String` with the sentinels `"results"` /
`"error"` compared literally.  `strFn` models Python's `str(result)` and
`fmtE` models `' '.join(format_exception(e))`. -/
def ntfy (ntfy_link topic : String) (on_completion on_error : Option String)
    (strFn : α → String) (fmtE : ε → String) (call : Except ε α) :
    PyOutcome ε α × List PostRecord :=
  let (pending, data) :
      PyOutcome ε α × Option String :=
    match call with
    | Except.ok result =>
      match on_completion with
      | none => (PyOutcome.ret result, none)
      | some s =>
        if s = "results" then (PyOutcome.ret result, some (strFn result))
        else (PyOutcome.ret result, some s)
    | Except.error e =>
      match on_error with
      | none => (PyOutcome.raised e, none)
      | some s =>
        if s = "error" then (PyOutcome.raised e, some (fmtE e))
        else (PyOutcome.raised e, some s)
  match data with
  | none => (PyOutcome.retNone, [])
  | some d => (pending, [⟨ntfy_link ++ "/" ++ topic, d⟩])

/-! ### `ntfy_time` (decs.py lines 216–251)

```python
def wrapper(*args, **kwargs):
    start = timer()
    ...
    try:
        result = func(*args, **kwargs)
        time = end_timer()
        data = f"Function: {func.__name__} successfully run in: {str(time)} seconds."
        return result
    except Exception as e:
        time = end_timer()
        data = f"Function: {func.__name__} had an error thrown after: {str(time)} seconds."
        raise e
    finally:
        post(f"{ntfy_link}/{topic}", data=data)
```

Here the `finally` block contains no `return`, so the in-flight return value
or exception always proceeds unchanged after the unconditional POST.  The
wall-clock measurement is abstracted by `timeStr`, the textual rendering
`str(time)` of the elapsed `timedelta`. -/
def ntfySuccessBody (fname timeStr : String) : String :=
  "Function: " ++ fname ++ " successfully run in: " ++ timeStr ++ " seconds."

def ntfyErrorBody (fname timeStr : String) : String :=
  "Function: " ++ fname ++ " had an error thrown after: " ++ timeStr ++ " seconds."

def ntfy_time (ntfy_link topic fname timeStr : String) (call : Except ε α) :
    PyOutcome ε α × List PostRecord :=
  match call with
  | Except.ok result =>
    (PyOutcome.ret result,
      [⟨ntfy_link ++ "/" ++ topic, ntfySuccessBody fname timeStr⟩])
  | Except.error e =>
    (PyOutcome.raised e,
      [⟨ntfy_link ++ "/" ++ topic, ntfyErrorBody fname timeStr⟩])

/-! ### `memorize` (decs.py lines 70–86)

```python
cache = {}

def wrapper(*args, **kwargs):
    key = args
    if key in cache:
        return cache[key]
    result = func(*args, **kwargs)
    cache[key] = result
    return result
```

The cache dict is modelled as an association list whose keys are the
positional-argument tuples (type `κ`); keyword arguments (type `β`) are
passed to the callable but take no part in the key.  Keys are only inserted
on a miss, so they stay distinct and association-list lookup matches dict
lookup.  One call maps the pre-call cache to
(returned value, post-call cache, number of invocations of `func`). -/
def cacheLookup [DecidableEq κ] : List (κ × ρ) → κ → Option ρ
  | [], _ => none
  | (k, v) :: rest, key => if k = key then some v else cacheLookup rest key

def memorize [DecidableEq κ] (func : κ → β → ρ)
    (cache : List (κ × ρ)) (args : κ) (kwargs : β) :
    ρ × List (κ × ρ) × Nat :=
  match cacheLookup cache args with
  | some v => (v, cache, 0)
  | none =>
    let result := func args kwargs
    (result, cache ++ [(args, result)], 1)

/-! ### Python values and `repr`, for the webhook notifier -/

/-- The fragment of Python's value universe the webhook notifier inspects:
`None`, tuples, and other (scalar) values.  The notifier only distinguishes
`None`, `tuple`, and everything else. -/
inductive PyVal where
  | vnone
  | vint (i : Int)
  | vstr (s : String)
  | vtuple (elems : List PyVal)

/-- Python's `repr` on the modelled values (`repr(None) = "None"`,
`repr(5) = "5"`, `repr('a') = "'a'"`, tuples with `", "` separators and a
trailing comma for 1-tuples). -/
def pyRepr : PyVal → String
  | PyVal.vnone => "None"
  | PyVal.vint i => toString i
  | PyVal.vstr s => "\x27" ++ s ++ "\x27"
  | PyVal.vtuple elems => "(" ++ pyReprTuple elems ++ ")"
where
  pyReprTuple : List PyVal → String
    | [] => ""
    | [x] => pyRepr x ++ ","
    | x :: y :: rest => pyRepr x ++ ", " ++ pyReprTuple (y :: rest)

/-! ### `discord_on_completion` (decs.py lines 104–156)

```python
def wrapper(*args, **kwargs):
    try:
        value = func(*args, **kwargs)
        plural = False
        if value is None:
            results = "None"
        elif isinstance(value, tuple):
            results = ','.join([f"{i!r}" for i in value])
            plural = True
        else:
            results = f"{value!r}"
        data = {..., "embeds": [{..., "title": ..., "description": ..., "color": 5814783}],
                "username": "Python Completion Notification", ...}
        post(webhook_url, json=data)
        return value
    except Exception as e:
        data = {..., "title": f"{type(e).__name__}: {e.__cause__}",
                "description": f"```{' '.join(format_exception(e))}```", ...}
        post(webhook_url, json=data)
        raise e
```

The JSON payload is modelled by the fields the claims inspect (`title`,
`description`, `color`, `username`); the constant `"content": None` and
`"attachments": []` keys are elided, as is the success embed's
`"author"` key.  `excHead` models `f"{type(e).__name__}: {e.__cause__}"`
and `fmtE` models `' '.join(format_exception(e))`. -/
structure WebhookPayload where
  title : String
  description : String
  color : Nat
  username : String
deriving DecidableEq

/-- One webhook POST: `post(webhook_url, json=data)`. -/
structure JsonPost where
  url : String
  payload : WebhookPayload
deriving DecidableEq

def discordDescription (fname : String) (value : PyVal) : String :=
  let plural : Bool := match value with
    | PyVal.vtuple _ => true
    | _ => false
  let results : String := match value with
    | PyVal.vnone => "None"
    | PyVal.vtuple elems => String.intercalate "," (elems.map pyRepr)
    | v => pyRepr v
  "Python function `" ++ fname ++ "` has completed running and the following value"
    ++ (if plural then "s" else "") ++ " "
    ++ (if plural then "were" else "was") ++ " returned: `"
    ++ (if plural then "(" else "") ++ results ++ (if plural then ")" else "") ++ "`."

def discordSuccessPayload (fname : String) (value : PyVal) : WebhookPayload :=
  { title := "`" ++ fname ++ "` Successfully Executed:"
    description := discordDescription fname value
    color := 5814783
    username := "Python Completion Notification" }

def discordFailurePayload (excHead trace : String) : WebhookPayload :=
  { title := excHead
    description := "```" ++ trace ++ "```"
    color := 5814783
    username := "Python Traceback Error" }

def discord_on_completion (webhook_url fname : String)
    (excHead fmtE : ε → String) (call : Except ε PyVal) :
    PyOutcome ε PyVal × List JsonPost :=
  match call with
  | Except.ok value =>
    (PyOutcome.ret value, [⟨webhook_url, discordSuccessPayload fname value⟩])
  | Except.error e =>
    (PyOutcome.raised e, [⟨webhook_url, discordFailurePayload (excHead e) (fmtE e)⟩])

/-- Modelled from the spec: `discord_on_failure(webhook_url)` is named by the
spec (§4.6, §2 component 6) but is absent from the provided source files,
which contain only `discord_on_completion`.  Per the spec's words: "only the
failure path exists; success returns silently with no network call", and on
failure it posts the failure payload and re-raises the original error. -/
def discord_on_failure (webhook_url : String)
    (excHead fmtE : ε → String) (call : Except ε α) :
    PyOutcome ε α × List JsonPost :=
  match call with
  | Except.ok value => (PyOutcome.ret value, [])
  | Except.error e =>
    (PyOutcome.raised e, [⟨webhook_url, discordFailurePayload (excHead e) (fmtE e)⟩])

/-! ## Theorems -/

/-- If the callable keeps failing, the loop either returns the error once
`tries` reaches `max_tries`, or advances one iteration. -/
theorem retryGo_ok (maxT : Int) (f : Nat → Except ε α) (errs : Nat → ε) (v : α) :
    ∀ (k t fuel : Nat), k < fuel →
      (∀ i, i < k → f (t + i) = Except.error (errs (t + i))) →
      f (t + k) = Except.ok v → ((t + k : Nat) : Int) < maxT →
      retryGo maxT f fuel t = (some (Except.ok v), t + k + 1) := by
  intro k
  induction k with
  | zero =>
    intro t fuel hfuel _ hsucc hlt
    match fuel, hfuel with
    | fuel + 1, _ =>
      simp only [Nat.add_zero] at hsucc hlt
      simp [retryGo, hlt, hsucc]
  | succ k ih =>
    intro t fuel hfuel hfail hsucc hlt
    match fuel, hfuel with
    | fuel + 1, hfuel =>
      have he := hfail 0 (Nat.succ_pos k)
      simp only [Nat.add_zero] at he
      have ht : (t : Int) < maxT := by
        have : ((t + (k + 1) : Nat) : Int) < maxT := hlt
        push_cast at this ⊢; omega
      have hne : ¬ ((t : Int) + 1 = maxT) := by
        have : ((t + (k + 1) : Nat) : Int) < maxT := hlt
        push_cast at this ⊢; omega
      have harr : t + 1 + k + 1 = t + (k + 1) + 1 := by omega
      rw [← harr]
      have step := ih (t + 1) fuel (by omega)
        (fun i hi => by
          have h := hfail (i + 1) (by omega)
          have : t + (i + 1) = t + 1 + i := by omega
          rwa [this] at h)
        (by
          have : t + (k + 1) = t + 1 + k := by omega
          rwa [this] at hsucc)
        (by
          have : t + (k + 1) = t + 1 + k := by omega
          rw [this] at hlt
          exact hlt)
      simp [retryGo, ht, he, hne, step]

/-- If the callable fails at every invocation, the loop raises the error of
invocation `max_tries - 1` after exactly `max_tries` invocations. -/
theorem retryGo_all_fail (maxT : Int) (errs : Nat → ε) :
    ∀ (fuel t : Nat), (t : Int) < maxT → maxT.toNat ≤ t + fuel →
      retryGo maxT (fun i => (Except.error (errs i) : Except ε α)) fuel t
        = (some (Except.error (errs (maxT.toNat - 1))), maxT.toNat) := by
  intro fuel
  induction fuel with
  | zero =>
    intro t ht hle
    exfalso
    omega
  | succ fuel ih =>
    intro t ht hle
    by_cases hEnd : ((t : Int) + 1) = maxT
    · have h1 : t + 1 = maxT.toNat := by omega
      have h2 : errs t = errs (maxT.toNat - 1) := by
        have ht2 : t = maxT.toNat - 1 := by omega
        rw [ht2]
      simp [retryGo, ht, hEnd, h2, h1]
    · have step := ih (t + 1) (by push_cast; omega) (by omega)
      simp [retryGo, ht, hEnd, step]

/-- C2: for a `retry`-wrapped callable with `max_tries ≥ 1`: if the callable
raises on its first `k` invocations (`k < max_tries`) and then succeeds, the
wrapper returns the success value after exactly `k + 1` invocations; if the
callable raises on every invocation, the wrapper invokes it exactly
`max_tries` times and re-raises the last error unchanged. -/
theorem retry_k_failures_then_success (mt k : Nat) (v : α)
    (f : Nat → Except ε α) (errs : Nat → ε)
    (hpos : 1 ≤ mt) (hk : k < mt)
    (hfail : ∀ i, i < k → f i = Except.error (errs i))
    (hsucc : f k = Except.ok v) :
    retryRun (mt : Int) f = (some (Except.ok v), k + 1) ∧
    retryRun (mt : Int) (fun i => (Except.error (errs i) : Except ε α))
      = (some (Except.error (errs (mt - 1))), mt) := by
  have htn : ((mt : Int)).toNat = mt := Int.toNat_natCast mt
  constructor
  · unfold retryRun
    rw [htn]
    have := retryGo_ok (mt : Int) f errs v k 0 mt hk
      (fun i hi => by simpa using hfail i hi)
      (by simpa using hsucc)
      (by push_cast; omega)
    simpa using this
  · unfold retryRun
    rw [htn]
    have := retryGo_all_fail (α := α) (mt : Int) errs mt 0
      (by push_cast; omega) (by omega)
    rw [htn] at this
    simpa using this

/-- Witness for C2 at `max_tries = 3`, one failure then success at the
second invocation. -/
theorem retry_k_failures_then_success_witness :
    retryRun (3 : Int) (fun i => if i = 0 then Except.error "e0" else Except.ok 42)
      = (some (Except.ok 42), 2) ∧
    retryRun (3 : Int) (fun _ => (Except.error "e0" : Except String Nat))
      = (some (Except.error "e0"), 3) := by
  have h := retry_k_failures_then_success 3 1 42
    (fun i => if i = 0 then Except.error "e0" else Except.ok 42)
    (fun _ => "e0")
    (by omega) (by omega)
    (fun i hi => by
      have h0 : i = 0 := by omega
      subst h0
      rfl)
    rfl
  exact ⟨h.1, h.2⟩

/-- C8: for the `retry` wrapper with `max_tries` zero or negative, the
wrapped callable is never invoked and the wrapper neither returns a value
nor raises: the `while` loop body never runs and the wrapper falls through,
returning Python's `None` (silent no-op). -/
theorem retry_nonpositive_noop (maxT : Int) (h : maxT ≤ 0)
    (f : Nat → Except ε α) :
    retryRun maxT f = (none, 0) := by
  unfold retryRun
  rw [Int.toNat_of_nonpos h]
  rfl

/-- Witness for C8 at `max_tries = -1`. -/
theorem retry_nonpositive_noop_witness :
    retryRun (-1 : Int) (fun _ => (Except.ok 7 : Except String Nat)) = (none, 0) :=
  retry_nonpositive_noop (-1) (by decide) _

/-- C1 counterexample: the claim asserts that whenever the `finally` step of
the `ntfy` wrapper performs a send (the computed `data` is not `None`), the
success-path return value is discarded (`None` returned) and the failure-path
re-raise is suppressed.  At the concrete configuration
`on_completion="results"`, `on_error="error"`, the send is performed in both
paths, yet the success value `"ok"` is returned (not `None`) and the
exception is re-raised (not suppressed): in Python a `finally` block only
overrides the in-flight outcome when it itself executes a `return`, which
here happens only in the `data is None` branch. -/
theorem ntfy_send_discards_claim_false :
    ntfy "L" "t" (some "results") (some "error") id id (Except.ok "ok")
      = (PyOutcome.ret "ok", [⟨"L/t", "ok"⟩]) ∧
    decide ((ntfy "L" "t" (some "results") (some "error") id id
        (Except.ok "ok")).1 = (PyOutcome.retNone : PyOutcome String String))
      = false ∧
    ntfy "L" "t" (some "results") (some "error") id id
        (Except.error "ValueError: boom")
      = (PyOutcome.raised "ValueError: boom", [⟨"L/t", "ValueError: boom"⟩]) ∧
    decide ((ntfy "L" "t" (some "results") (some "error") id id
        (Except.error "ValueError: boom")).1
          = (PyOutcome.retNone : PyOutcome String String))
      = false := by
  exact ⟨rfl, by decide, rfl, by decide⟩

/-- C1 amended: in the `ntfy` wrapper it is the *no-send* cleanup case (the
computed `data` is `None`, i.e. `on_completion=None` on success or
`on_error=None` on failure) in which the bare `return` inside `finally`
silently discards the success-path return value (returning `None`) and
suppresses the failure-path re-raise; when the cleanup does perform a send
(`data` not `None`), the success value is returned and the failure is
re-raised unchanged, alongside exactly one POST. -/
theorem ntfy_finally_semantics :
    ∀ (α ε : Type) (link topic : String) (oc oe : Option String)
      (strFn : α → String) (fmtE : ε → String),
    (∀ r : α, ntfy link topic none oe strFn fmtE (Except.ok r)
        = (PyOutcome.retNone, [])) ∧
    (∀ (s : String) (r : α), ntfy link topic (some s) oe strFn fmtE (Except.ok r)
        = (PyOutcome.ret r,
           [⟨link ++ "/" ++ topic, if s = "results" then strFn r else s⟩])) ∧
    (∀ e : ε, ntfy link topic oc none strFn fmtE (Except.error e)
        = (PyOutcome.retNone, [])) ∧
    (∀ (s : String) (e : ε), ntfy link topic oc (some s) strFn fmtE (Except.error e)
        = (PyOutcome.raised e,
           [⟨link ++ "/" ++ topic, if s = "error" then fmtE e else s⟩])) := by
  intro α ε link topic oc oe strFn fmtE
  refine ⟨fun r => rfl, fun s r => ?_, fun e => rfl, fun s e => ?_⟩
  · by_cases h : s = "results" <;> simp [ntfy, h]
  · by_cases h : s = "error" <;> simp [ntfy, h]

/-- C3: the claim (and the spec's propagation policy) says that with
`on_error=None` the `ntfy` wrapper re-raises the original exception without
sending.  The code instead reaches the `finally` block with `data = None`,
whose bare `return` *swallows* the in-flight exception: the wrapper returns
`None` and nothing is sent.  This theorem evaluates the embedding at the
failing input. -/
theorem ntfy_on_error_none_swallows :
    ntfy "https://ntfy.sh" "jobs" (some "results") none id id
        (Except.error "ValueError: boom")
      = ((PyOutcome.retNone : PyOutcome String String), []) ∧
    decide ((ntfy "https://ntfy.sh" "jobs" (some "results") none id id
        (Except.error "ValueError: boom")).1
          = PyOutcome.raised "ValueError: boom")
      = false := by
  exact ⟨rfl, by decide⟩

/-- C7: for the `ntfy` wrapper with `on_completion="results"`, a successful
call issues exactly one POST, to `<ntfy_link>/<topic>`, whose body is the
textual rendering (`str`) of the return value; in particular a function
returning `"ok"` leads to one POST with body `"ok"`. -/
theorem ntfy_results_success_single_post :
    (∀ (α ε : Type) (link topic : String) (oe : Option String)
       (strFn : α → String) (fmtE : ε → String) (r : α),
       ntfy link topic (some "results") oe strFn fmtE (Except.ok r)
         = (PyOutcome.ret r, [⟨link ++ "/" ++ topic, strFn r⟩])) ∧
    ntfy "https://ntfy.sh" "jobs" (some "results") (some "error") id id
        (Except.ok "ok")
      = (PyOutcome.ret "ok", [⟨"https://ntfy.sh/jobs", "ok"⟩]) := by
  constructor
  · intro α ε link topic oe strFn fmtE r
    simp [ntfy]
  · rfl

/-- C4: every `ntfy_time`-wrapped call issues exactly one POST whether the
wrapped function returns or raises; the body contains "successfully" exactly
in the success case and "error thrown" exactly in the failure case (the
exclusions checked at a representative function name and duration); on
success the wrapper returns the wrapped function's result and on failure it
re-raises the original error. -/
theorem ntfy_time_single_post_and_wording :
    (∀ (α ε : Type) (link topic fname timeStr : String) (r : α),
       ntfy_time link topic fname timeStr (Except.ok r : Except ε α)
         = (PyOutcome.ret r,
            [⟨link ++ "/" ++ topic, ntfySuccessBody fname timeStr⟩])) ∧
    (∀ (α ε : Type) (link topic fname timeStr : String) (e : ε),
       ntfy_time link topic fname timeStr (Except.error e : Except ε α)
         = (PyOutcome.raised e,
            [⟨link ++ "/" ++ topic, ntfyErrorBody fname timeStr⟩])) ∧
    (∀ fname timeStr, strHasSub "successfully" (ntfySuccessBody fname timeStr) = true) ∧
    (∀ fname timeStr, strHasSub "error thrown" (ntfyErrorBody fname timeStr) = true) ∧
    strHasSub "error thrown" (ntfySuccessBody "work" "0:00:02.123456") = false ∧
    strHasSub "successfully" (ntfyErrorBody "work" "0:00:02.123456") = false := by
  refine ⟨fun α ε link topic fname timeStr r => rfl,
          fun α ε link topic fname timeStr e => rfl,
          fun fname timeStr => ?_, fun fname timeStr => ?_,
          by decide, by decide⟩
  · show hasSub ("successfully".data) _ = true
    simp only [ntfySuccessBody, String.data_append, List.append_assoc]
    apply hasSub_append_left
    apply hasSub_append_left
    show hasSub ("successfully".data)
      (' ' :: ("successfully".data
        ++ (" run in: ".data ++ (timeStr.data ++ " seconds.".data)))) = true
    apply hasSub_cons
    exact hasSub_self_append _ _
  · show hasSub ("error thrown".data) _ = true
    simp only [ntfyErrorBody, String.data_append, List.append_assoc]
    apply hasSub_append_left
    apply hasSub_append_left
    show hasSub ("error thrown".data)
      (" had an ".data ++ ("error thrown".data
        ++ (" after: ".data ++ (timeStr.data ++ " seconds.".data)))) = true
    apply hasSub_append_left
    exact hasSub_self_append _ _

/-- C5: the `memorize` cache key is the positional-argument tuple only: a
repeat call with the same positional arguments returns the cached value with
zero further invocations of the underlying function, while supplying the
same values as keyword arguments instead (empty positional tuple) misses the
cache and invokes the underlying function. -/
theorem memorize_positional_key :
    (∀ (f : List Int → List (String × Int) → Int) (args : List Int)
       (kw : List (String × Int)),
       memorize f [] args kw = (f args kw, [(args, f args kw)], 1) ∧
       memorize f ((memorize f [] args kw).2.1) args kw
         = (f args kw, [(args, f args kw)], 0)) ∧
    (∀ (f : List Int → List (String × Int) → Int) (x y : Int),
       (memorize f ((memorize f [] [x, y] []).2.1) []
          [("a", x), ("b", y)]).2.2 = 1) := by
  constructor
  · intro f args kw
    constructor
    · simp [memorize, cacheLookup]
    · simp [memorize, cacheLookup]
  · intro f x y
    simp [memorize, cacheLookup]

/-- C10: when two calls to a `memorize`-wrapped function have equal
positional-argument tuples, the second call returns the first call's cached
result without invoking the underlying function, even when the keyword
arguments differ: the second caller receives the value computed with the
first caller's keyword arguments. -/
theorem memorize_hit_ignores_kwargs :
    ∀ (f : List Int → List (String × Int) → Int) (args : List Int)
      (kw1 kw2 : List (String × Int)),
      memorize f ((memorize f [] args kw1).2.1) args kw2
        = (f args kw1, [(args, f args kw1)], 0) := by
  intro f args kw1 kw2
  simp [memorize, cacheLookup]

/-- C6: the `discord_on_completion` success payload's description uses
pluralized wording and renders every tuple element when the wrapped function
returns a tuple such as `(1,2)`, and singular wording for a single non-tuple
value such as `5`. -/
theorem discord_description_plural_singular :
    discord_on_completion "https://discord/webhook" "f" (fun e : String => e)
        (fun e => e) (Except.ok (PyVal.vtuple [PyVal.vint 1, PyVal.vint 2]))
      = (PyOutcome.ret (PyVal.vtuple [PyVal.vint 1, PyVal.vint 2]),
         [⟨"https://discord/webhook",
           { title := "`f` Successfully Executed:"
             description := "Python function `f` has completed running and the following values were returned: `(1,2)`."
             color := 5814783
             username := "Python Completion Notification" }⟩]) ∧
    discord_on_completion "https://discord/webhook" "f" (fun e : String => e)
        (fun e => e) (Except.ok (PyVal.vint 5))
      = (PyOutcome.ret (PyVal.vint 5),
         [⟨"https://discord/webhook",
           { title := "`f` Successfully Executed:"
             description := "Python function `f` has completed running and the following value was returned: `5`."
             color := 5814783
             username := "Python Completion Notification" }⟩]) := by
  constructor <;> rfl

/-- C9: `discord_on_failure` (modelled from the spec, absent from the
provided sources): only the failure path exists — success returns the value
silently with no network call, failure posts the failure payload once and
re-raises the original error. -/
theorem discord_on_failure_paths :
    ∀ (α ε : Type) (url : String) (excHead fmtE : ε → String) (v : α) (e : ε),
      discord_on_failure url excHead fmtE (Except.ok v : Except ε α)
        = (PyOutcome.ret v, []) ∧
      discord_on_failure url excHead fmtE (Except.error e : Except ε α)
        = (PyOutcome.raised e,
           [⟨url, discordFailurePayload (excHead e) (fmtE e)⟩]) := by
  intro α ε url excHead fmtE v e
  exact ⟨rfl, rfl⟩

end WashDecorators
